import Mathlib

/-!
Verification of the ceph `Formatter` structured-output writer
(`src/src/common/Formatter.h`).

The repository ships only the header. The inline member functions found
there (`Formatter::dump_bool`, the default `_with_attrs` entry points,
`Formatter::flush(bufferlist&)`, the `Formatter::create` overload wrappers)
are embedded directly from that source. The out-of-line member functions of
`JSONFormatter`, `XMLFormatter` and `TableFormatter` are only declared in
the header, so their behaviour is modelled from the specification
(sections 4.2 - 4.4 of the design document); each such definition carries a
doc comment saying so.

Machine integers of the interface (`uint64_t`, `int64_t`) are embedded as
`Nat` and `Int`; all renderer state is explicit and every definition is
executable.
-/

/-- A string of `n` spaces (pretty-printing indentation unit). -/
def spacesStr (n : Nat) : String := String.mk (List.replicate n ' ')

/-- The non-whitespace characters of a string, in order. Two outputs that
agree under `nonWS` differ only in spaces and newlines. -/
def nonWS (s : String) : String :=
  String.mk (s.data.filter fun c => !(c = ' ' || c = '\n'))

/-- Minimal printf model: substitute each occurrence of the placeholder
`%s` in the format string by the next positional argument. Only `%s` is
needed by the embedded call sites (`Formatter::dump_bool`). -/
def cformat : List Char → List String → List Char
  | [], _ => []
  | '%' :: 's' :: rest, a :: args => a.data ++ cformat rest args
  | '%' :: 's' :: rest, [] => cformat rest []
  | c :: rest, args => c :: cformat rest args

/-- One abstract call on the `Formatter` contract. `dumpStream name val`
stands for `dump_stream(name)` followed by writing `val` into the returned
stream: the value becomes a Pending Scalar. -/
inductive FOp where
  | openObj (name : String)
  | openArr (name : String)
  | closeSec
  | dumpString (name : String) (val : String)
  | dumpInt (name : String) (i : Int)
  | dumpUnsigned (name : String) (u : Nat)
  | dumpFormatUnquoted (name : String) (fmt : String) (args : List String)
  | dumpStream (name : String) (val : String)
deriving DecidableEq

/-- `true` exactly for the `dump_stream` call, the one operation that
leaves a Pending Scalar behind. -/
def FOp.isStream : FOp → Bool
  | .dumpStream _ _ => true
  | _ => false

/-- Depth check: every `close_section` in the list happens at positive
nesting depth when started from depth `d` (the well-nested call sequences
of the spec). -/
def wellNestedFrom : List FOp → Nat → Bool
  | [], _ => true
  | op :: rest, d =>
    match op with
    | .closeSec => decide (0 < d) && wellNestedFrom rest (d - 1)
    | .openObj _ => wellNestedFrom rest (d + 1)
    | .openArr _ => wellNestedFrom rest (d + 1)
    | _ => wellNestedFrom rest d

/-- From `src/src/common/Formatter.h` lines 109-113: one JSON section-stack
entry, its emitted-child count and array flag. -/
structure json_formatter_stack_entry_d where
  size : Nat
  is_array : Bool
deriving DecidableEq

/-- State of a `JSONFormatter` (fields from the header, lines 115-124):
pretty flag, accumulated output `m_ss`, section stack, and the Pending
Scalar slot (`m_pending_string` plus `m_is_pending_string`). -/
structure JSONFormatterState where
  m_pretty : Bool
  m_ss : String
  m_stack : List json_formatter_stack_entry_d
  m_pending_name : String
  m_pending_string : String
  m_is_pending_string : Bool
deriving DecidableEq

namespace JSONFormatter

/-- Modelled from the spec: `JSONFormatter(bool p = false)` starts with an
empty buffer, empty stack and no Pending Scalar. -/
def init (p : Bool) : JSONFormatterState :=
  ⟨p, "", [], "", "", false⟩

/-- Modelled from the spec (section 4.2): whitespace emitted before a token at
nesting depth `d` — a newline plus `depth x fixed unit` indentation in
pretty mode, nothing in compact mode. -/
def ws_tok (pretty : Bool) (d : Nat) : String :=
  if pretty then "\n" ++ spacesStr (2 * d) else ""

/-- Modelled from the spec: the key/value separator, `: ` pretty, `:` compact. -/
def colon_tok (pretty : Bool) : String := if pretty then ": " else ":"

/-- Modelled from the spec: JSON string escaping of one character (quote,
backslash, control characters). -/
def escape_json_char (c : Char) : List Char :=
  if c = '\"' then ['\\', '\"']
  else if c = '\\' then ['\\', '\\']
  else if c = '\n' then ['\\', 'n']
  else [c]

/-- Modelled from the spec: `JSONFormatter::print_quoted_string`, the
escaped and quoted form of a string scalar. -/
def print_quoted_string (s : String) : String :=
  "\"" ++ String.mk ((s.data.map escape_json_char).flatten) ++ "\""

/-- Modelled from the spec: `JSONFormatter::print_name`. Given the current
stack, produce the text emitted before a new child (comma separator when the
enclosing section already has children, pretty whitespace, and the quoted
key when the enclosing section is an object) together with the updated
stack in which the enclosing entry's child count has grown. At top level
(empty stack) nothing is printed. -/
def print_name (pretty : Bool) (stack : List json_formatter_stack_entry_d)
    (name : String) : String × List json_formatter_stack_entry_d :=
  match stack with
  | [] => ("", [])
  | e :: rest =>
    ((if 0 < e.size then "," else "") ++ ws_tok pretty (rest.length + 1) ++
       (if e.is_array then "" else "\"" ++ name ++ "\"" ++ colon_tok pretty),
     ⟨e.size + 1, e.is_array⟩ :: rest)

/-- Modelled from the spec: commit one named body (an already rendered
value or bracket-free token) as a child of the current section. -/
def emit_entry (st : JSONFormatterState) (name body : String) :
    JSONFormatterState :=
  let pn := print_name st.m_pretty st.m_stack name
  { st with m_ss := st.m_ss ++ pn.1 ++ body, m_stack := pn.2 }

/-- Modelled from the spec: `JSONFormatter::finish_pending_string` commits
the Pending Scalar (if any) as a quoted string child and clears the slot. -/
def finish_pending_string (st : JSONFormatterState) : JSONFormatterState :=
  if st.m_is_pending_string then
    { emit_entry st st.m_pending_name (print_quoted_string st.m_pending_string) with
        m_pending_name := "", m_pending_string := "", m_is_pending_string := false }
  else st

/-- Modelled from the spec: `JSONFormatter::open_section` — finalize any
Pending Scalar, emit separator/key and the opening bracket, push a fresh
stack entry. -/
def open_section (st : JSONFormatterState) (name : String) (is_array : Bool) :
    JSONFormatterState :=
  let st1 := finish_pending_string st
  let pn := print_name st1.m_pretty st1.m_stack name
  { st1 with
      m_ss := st1.m_ss ++ pn.1 ++ (if is_array then "[" else "\x7b"),
      m_stack := ⟨0, is_array⟩ :: pn.2 }

/-- Modelled from the spec: `JSONFormatter::close_section` — finalize any
Pending Scalar, then pop the top entry and emit its closing bracket.
Closing with an empty stack is a contract violation (the spec directs a
fail-fast assert), embedded as `none`. -/
def close_section (st : JSONFormatterState) : Option JSONFormatterState :=
  match (finish_pending_string st).m_stack with
  | [] => none
  | e :: rest =>
    some { finish_pending_string st with
            m_ss := (finish_pending_string st).m_ss ++
                      ws_tok (finish_pending_string st).m_pretty rest.length ++
                      (if e.is_array then "]" else "\x7d"),
            m_stack := rest }

/-- Modelled from the spec: `JSONFormatter::dump_string`. -/
def dump_string (st : JSONFormatterState) (name s : String) :
    JSONFormatterState :=
  emit_entry (finish_pending_string st) name (print_quoted_string s)

/-- Modelled from the spec: `JSONFormatter::dump_int` (locale-independent
base-10 text). -/
def dump_int (st : JSONFormatterState) (name : String) (i : Int) :
    JSONFormatterState :=
  emit_entry (finish_pending_string st) name (toString i)

/-- Modelled from the spec: `JSONFormatter::dump_unsigned`. -/
def dump_unsigned (st : JSONFormatterState) (name : String) (u : Nat) :
    JSONFormatterState :=
  emit_entry (finish_pending_string st) name (toString u)

/-- Modelled from the spec: the unquoted formatted-value path
(`dump_format_unquoted` via `dump_format_va` with `quoted = false`). -/
def dump_format_unquoted (st : JSONFormatterState) (name fmt : String)
    (args : List String) : JSONFormatterState :=
  emit_entry (finish_pending_string st) name (String.mk (cformat fmt.data args))

/-- Modelled from the spec: `JSONFormatter::dump_stream` plus the caller's
writes into the returned stream — any previous Pending Scalar is finalized
first, then the slot holds the new name/value. -/
def dump_stream (st : JSONFormatterState) (name val : String) :
    JSONFormatterState :=
  let st1 := finish_pending_string st
  { st1 with m_pending_name := name, m_pending_string := val,
             m_is_pending_string := true }

/-- Modelled from the spec: `JSONFormatter::flush(std::ostream&)` —
finalize any Pending Scalar, then the output is the accumulated `m_ss`
(state is not cleared). -/
def flush_str (st : JSONFormatterState) : String :=
  (finish_pending_string st).m_ss

end JSONFormatter

/-- Dispatch one abstract contract call on the JSON renderer state.
`none` marks a fail-fast contract violation. -/
def jsonStep (op : FOp) (st : JSONFormatterState) : Option JSONFormatterState :=
  match op with
  | .openObj n => some (JSONFormatter.open_section st n false)
  | .openArr n => some (JSONFormatter.open_section st n true)
  | .closeSec => JSONFormatter.close_section st
  | .dumpString n s => some (JSONFormatter.dump_string st n s)
  | .dumpInt n i => some (JSONFormatter.dump_int st n i)
  | .dumpUnsigned n u => some (JSONFormatter.dump_unsigned st n u)
  | .dumpFormatUnquoted n fmt args => some (JSONFormatter.dump_format_unquoted st n fmt args)
  | .dumpStream n v => some (JSONFormatter.dump_stream st n v)

/-- Run a call sequence on the JSON renderer. -/
def jsonExec : List FOp → JSONFormatterState → Option JSONFormatterState
  | [], st => some st
  | op :: ops, st =>
    match jsonStep op st with
    | none => none
    | some st1 => jsonExec ops st1

/-- The apostrophe character (code point 39). -/
def aposChar : Char := Char.ofNat 39

/-- The XML entity for an apostrophe, `&` `apos` `;`. -/
def aposEntity : List Char := ['&', 'a', 'p', 'o', 's', ';']

/-- The five XML reserved characters. -/
def isXmlSpecial (c : Char) : Bool :=
  c = '&' || c = '<' || c = '>' || c = '\"' || c = aposChar

namespace XMLFormatter

/-- Modelled from the spec (section 4.3): XML escaping of one character —
each of the reserved characters `& < > \" '` becomes its entity, everything
else is kept. -/
def escape_xml_char (c : Char) : List Char :=
  if c = '&' then "&amp;".data
  else if c = '<' then "&lt;".data
  else if c = '>' then "&gt;".data
  else if c = '\"' then "&quot;".data
  else if c = aposChar then aposEntity
  else [c]

/-- Modelled from the spec: `XMLFormatter::escape_xml_str`. -/
def escape_xml_str (s : String) : String :=
  String.mk ((s.data.map escape_xml_char).flatten)

/-- Modelled from the spec: `XMLFormatter::get_attrs_str` — the inline
attribute text of an opening tag, attribute values escaped and quoted. -/
def get_attrs_str (attrs : List (String × String)) : String :=
  (attrs.map fun p => " " ++ p.1 ++ "=\"" ++ escape_xml_str p.2 ++ "\"").foldl
    (fun a b => a ++ b) ""

end XMLFormatter

/-- State of an `XMLFormatter` (fields from the header, lines 159-162):
accumulated output `m_ss`, the open-tag stack `m_sections`, pretty flag,
and the Pending Scalar (active exactly when `m_pending_string_name` is
non-empty, as `XMLFormatter::finish_pending_string` tests). -/
structure XMLFormatterState where
  m_pretty : Bool
  m_ss : String
  m_sections : List String
  m_pending_string_name : String
  m_pending_string : String
deriving DecidableEq

namespace XMLFormatter

/-- Modelled from the spec: `XMLFormatter(bool pretty = false)`. -/
def init (p : Bool) : XMLFormatterState :=
  ⟨p, "", [], "", ""⟩

/-- Modelled from the spec: indentation by nesting depth in pretty mode,
nothing in compact mode (`XMLFormatter::print_spaces`). -/
def indent_tok (pretty : Bool) (d : Nat) : String :=
  if pretty then spacesStr (2 * d) else ""

/-- Modelled from the spec: the newline ending a pretty-mode line. -/
def nl_tok (pretty : Bool) : String := if pretty then "\n" else ""

/-- Modelled from the spec: emit one scalar leaf `<name>body</name>` at the
current depth (`body` already escaped by the caller). -/
def emit_leaf (st : XMLFormatterState) (name body : String) :
    XMLFormatterState :=
  { st with
      m_ss := st.m_ss ++ indent_tok st.m_pretty st.m_sections.length ++
        "<" ++ name ++ ">" ++ body ++ "</" ++ name ++ ">" ++
        nl_tok st.m_pretty }

/-- Modelled from the spec: `XMLFormatter::finish_pending_string` — when a
Pending Scalar is outstanding, commit it as an escaped leaf and clear it. -/
def finish_pending_string (st : XMLFormatterState) : XMLFormatterState :=
  if st.m_pending_string_name = "" then st
  else
    { emit_leaf st st.m_pending_string_name (escape_xml_str st.m_pending_string) with
        m_pending_string_name := "", m_pending_string := "" }

/-- Modelled from the spec: `XMLFormatter::open_section_in_ns` without a
namespace — finalize any Pending Scalar, emit the opening tag (with the
rendered attribute text) and push the tag name. -/
def open_section (st : XMLFormatterState) (name attrs_str : String) :
    XMLFormatterState :=
  let st1 := finish_pending_string st
  { st1 with
      m_ss := st1.m_ss ++ indent_tok st1.m_pretty st1.m_sections.length ++
        "<" ++ name ++ attrs_str ++ ">" ++ nl_tok st1.m_pretty,
      m_sections := name :: st1.m_sections }

/-- Modelled from the spec: `XMLFormatter::close_section` — finalize any
Pending Scalar, pop the innermost tag and emit its closing tag. Closing
with no open section is a contract violation, embedded as `none`. -/
def close_section (st : XMLFormatterState) : Option XMLFormatterState :=
  match (finish_pending_string st).m_sections with
  | [] => none
  | n :: rest =>
    some { finish_pending_string st with
            m_ss := (finish_pending_string st).m_ss ++
              indent_tok (finish_pending_string st).m_pretty rest.length ++
              "</" ++ n ++ ">" ++ nl_tok (finish_pending_string st).m_pretty,
            m_sections := rest }

/-- Modelled from the spec: `XMLFormatter::dump_string` — an escaped leaf. -/
def dump_string (st : XMLFormatterState) (name s : String) :
    XMLFormatterState :=
  emit_leaf (finish_pending_string st) name (escape_xml_str s)

/-- Modelled from the spec: `XMLFormatter::dump_string_with_attrs` — the
attribute text is rendered into the opening tag of the leaf. -/
def dump_string_with_attrs (st : XMLFormatterState) (name s : String)
    (attrs : List (String × String)) : XMLFormatterState :=
  let st1 := finish_pending_string st
  { st1 with
      m_ss := st1.m_ss ++ indent_tok st1.m_pretty st1.m_sections.length ++
        "<" ++ name ++ get_attrs_str attrs ++ ">" ++ escape_xml_str s ++
        "</" ++ name ++ ">" ++ nl_tok st1.m_pretty }

/-- Modelled from the spec: `XMLFormatter::dump_int`. -/
def dump_int (st : XMLFormatterState) (name : String) (i : Int) :
    XMLFormatterState :=
  emit_leaf (finish_pending_string st) name (toString i)

/-- Modelled from the spec: `XMLFormatter::dump_unsigned`. -/
def dump_unsigned (st : XMLFormatterState) (name : String) (u : Nat) :
    XMLFormatterState :=
  emit_leaf (finish_pending_string st) name (toString u)

/-- Modelled from the spec: the formatted-value path of the XML renderer
(`dump_format_va`); XML has no quoting distinction, the formatted text is
escaped and emitted as a leaf. -/
def dump_format_unquoted (st : XMLFormatterState) (name fmt : String)
    (args : List String) : XMLFormatterState :=
  emit_leaf (finish_pending_string st) name
    (escape_xml_str (String.mk (cformat fmt.data args)))

/-- Modelled from the spec: `XMLFormatter::dump_stream` plus the caller's
writes — any previous Pending Scalar is finalized first. -/
def dump_stream (st : XMLFormatterState) (name val : String) :
    XMLFormatterState :=
  let st1 := finish_pending_string st
  { st1 with m_pending_string_name := name, m_pending_string := val }

/-- Modelled from the spec: `XMLFormatter::flush(std::ostream&)` —
finalize any Pending Scalar, output is the accumulated `m_ss`. -/
def flush_str (st : XMLFormatterState) : String :=
  (finish_pending_string st).m_ss

end XMLFormatter

/-- Dispatch one abstract contract call on the XML renderer state. -/
def xmlStep (op : FOp) (st : XMLFormatterState) : Option XMLFormatterState :=
  match op with
  | .openObj n => some (XMLFormatter.open_section st n "")
  | .openArr n => some (XMLFormatter.open_section st n "")
  | .closeSec => XMLFormatter.close_section st
  | .dumpString n s => some (XMLFormatter.dump_string st n s)
  | .dumpInt n i => some (XMLFormatter.dump_int st n i)
  | .dumpUnsigned n u => some (XMLFormatter.dump_unsigned st n u)
  | .dumpFormatUnquoted n fmt args => some (XMLFormatter.dump_format_unquoted st n fmt args)
  | .dumpStream n v => some (XMLFormatter.dump_stream st n v)

/-- Run a call sequence on the XML renderer. -/
def xmlExec : List FOp → XMLFormatterState → Option XMLFormatterState
  | [], st => some st
  | op :: ops, st =>
    match xmlStep op st with
    | none => none
    | some st1 => xmlExec ops st1

/-- State of a `TableFormatter` in tabular mode (fields from the header,
lines 194-206): the committed rows `m_vec` (each a list of
column-name/cell-text pairs), the open-section stack `m_section` (here with
an array flag per entry), the discovered column list `m_column_name`, the
row currently being filled, and the Pending Scalar slot (`m_pending_name`).
Column widths are derived from the cells at flush time (the spec fixes the
final width of a column as the maximum over all cells ever placed in it). -/
structure TableFormatterState where
  m_keyval : Bool
  m_section : List (String × Bool)
  m_row : List (String × String)
  m_vec : List (List (String × String))
  m_column_name : List String
  m_pending_name : String
  m_pending_string : String
deriving DecidableEq

/-- Modelled from the spec (section 4.4): column discovery — a leaf name is
appended to the ordered column list the first time it is seen, later rows
reuse the existing column. -/
def tableInsertCol (cols : List String) (n : String) : List String :=
  if n ∈ cols then cols else cols ++ [n]

namespace TableFormatter

/-- Modelled from the spec: `TableFormatter(bool keyval = false)`. -/
def init (keyval : Bool) : TableFormatterState :=
  ⟨keyval, [], [], [], [], "", ""⟩

/-- Modelled from the spec: place one leaf scalar as a cell of the row
currently being filled, discovering its column on first sight. -/
def add_cell (st : TableFormatterState) (n v : String) : TableFormatterState :=
  { st with
      m_column_name := tableInsertCol st.m_column_name n,
      m_row := st.m_row ++ [(n, v)] }

/-- Modelled from the spec: `TableFormatter::finish_pending_string`. -/
def finish_pending_string (st : TableFormatterState) : TableFormatterState :=
  if st.m_pending_name = "" then st
  else
    { add_cell st st.m_pending_name st.m_pending_string with
        m_pending_name := "", m_pending_string := "" }

/-- `true` when the innermost open section is an array (the controlling
array-of-objects context of a row). -/
def topIsArray : List (String × Bool) → Bool
  | (_, true) :: _ => true
  | _ => false

/-- Modelled from the spec: opening a section pushes it; rows are the
objects opened directly inside the controlling array. -/
def open_section (st : TableFormatterState) (name : String) (is_array : Bool) :
    TableFormatterState :=
  let st1 := finish_pending_string st
  { st1 with m_section := (name, is_array) :: st1.m_section }

/-- Modelled from the spec: `TableFormatter::close_section` — pop the
innermost section; when the popped section is an object lying directly
inside an array, the accumulated row of cells is committed to `m_vec`.
Closing with no open section is a contract violation, embedded as `none`. -/
def close_section (st : TableFormatterState) : Option TableFormatterState :=
  let st1 := finish_pending_string st
  match st1.m_section with
  | [] => none
  | (_, is_array) :: rest =>
    if !is_array && topIsArray rest then
      some { st1 with m_section := rest, m_vec := st1.m_vec ++ [st1.m_row],
                      m_row := [] }
    else
      some { st1 with m_section := rest }

/-- Modelled from the spec: `TableFormatter::dump_string`. -/
def dump_string (st : TableFormatterState) (name s : String) :
    TableFormatterState :=
  add_cell (finish_pending_string st) name s

/-- Modelled from the spec: `TableFormatter::dump_int`. -/
def dump_int (st : TableFormatterState) (name : String) (i : Int) :
    TableFormatterState :=
  add_cell (finish_pending_string st) name (toString i)

/-- Modelled from the spec: `TableFormatter::dump_unsigned`. -/
def dump_unsigned (st : TableFormatterState) (name : String) (u : Nat) :
    TableFormatterState :=
  add_cell (finish_pending_string st) name (toString u)

/-- Modelled from the spec: the formatted-value path of the table renderer
(`dump_format_va`): the formatted text becomes the cell text. -/
def dump_format_unquoted (st : TableFormatterState) (name fmt : String)
    (args : List String) : TableFormatterState :=
  add_cell (finish_pending_string st) name (String.mk (cformat fmt.data args))

/-- Modelled from the spec: `TableFormatter::dump_stream` plus the caller's
writes — any previous Pending Scalar is finalized first. -/
def dump_stream (st : TableFormatterState) (name val : String) :
    TableFormatterState :=
  let st1 := finish_pending_string st
  { st1 with m_pending_name := name, m_pending_string := val }

/-- The cell text of column `c` in a committed row: the value of the pair
with that column name, when the row ever dumped that field. -/
def lookupCell (c : String) (row : List (String × String)) : Option String :=
  (row.find? fun p => p.1 == c).map Prod.snd

/-- Modelled from the spec: the final width of a column is the maximum over
all cells ever placed in it. -/
def col_width (st : TableFormatterState) (c : String) : Nat :=
  (st.m_vec.map fun row => ((lookupCell c row).getD "").length).foldl max 0

/-- Left-align a cell to the column width by right-padding with spaces. -/
def padTo (w : Nat) (s : String) : String := s ++ spacesStr (w - s.length)

/-- The column name at position `j` of the discovered column list. -/
def colAt (st : TableFormatterState) (j : Nat) : String :=
  st.m_column_name.getD j ""

/-- The committed row at position `i`. -/
def rowAt (st : TableFormatterState) (i : Nat) : List (String × String) :=
  st.m_vec.getD i []

/-- Modelled from the spec: the rendered cell of row `i` at column
position `j` — the value the row dumped for that column, or blank when it
never dumped one, padded to the column width. Cells are addressed by column
position, so a missing field cannot shift later cells. -/
def cellAt (st : TableFormatterState) (i j : Nat) : String :=
  padTo (col_width st (colAt st j)) ((lookupCell (colAt st j) (rowAt st i)).getD "")

/-- Modelled from the spec: `TableFormatter::flush(std::ostream&)` in
tabular mode — every row rendered as its aligned cells, one line per row. -/
def flush_str (st : TableFormatterState) : String :=
  let st1 := finish_pending_string st
  String.join ((List.range st1.m_vec.length).map fun i =>
    String.join ((List.range st1.m_column_name.length).map fun j =>
      cellAt st1 i j ++ " ") ++ "\n")

end TableFormatter

/-- Dispatch one abstract contract call on the table renderer state. -/
def tableStep (op : FOp) (st : TableFormatterState) : Option TableFormatterState :=
  match op with
  | .openObj n => some (TableFormatter.open_section st n false)
  | .openArr n => some (TableFormatter.open_section st n true)
  | .closeSec => TableFormatter.close_section st
  | .dumpString n s => some (TableFormatter.dump_string st n s)
  | .dumpInt n i => some (TableFormatter.dump_int st n i)
  | .dumpUnsigned n u => some (TableFormatter.dump_unsigned st n u)
  | .dumpFormatUnquoted n fmt args => some (TableFormatter.dump_format_unquoted st n fmt args)
  | .dumpStream n v => some (TableFormatter.dump_stream st n v)

/-- Run a call sequence on the table renderer. -/
def tableExec : List FOp → TableFormatterState → Option TableFormatterState
  | [], st => some st
  | op :: ops, st =>
    match tableStep op st with
    | none => none
    | some st1 => tableExec ops st1

/-- The call sequence of the spec's worked example. -/
def exampleOps : List FOp :=
  [FOp.openObj "enclosing", FOp.dumpString "name" "a",
   FOp.dumpInt "id" 1, FOp.closeSec]

/-- The contract calls of one table row: open an object section, dump each
leaf field, close the section. -/
def tableRowOps (rn : String) (row : List (String × String)) : List FOp :=
  FOp.openObj rn :: (row.map fun p => FOp.dumpString p.1 p.2) ++ [FOp.closeSec]

/-- The contract calls of an array-of-objects: open the array section,
emit each row, close it. -/
def tableArrayOps (an rn : String) (rows : List (List (String × String))) :
    List FOp :=
  FOp.openArr an :: (rows.map (tableRowOps rn)).flatten ++ [FOp.closeSec]

/-- The union, in first-seen order, of a list of dumped leaf names. -/
def firstSeenColumns (names : List String) : List String :=
  names.foldl tableInsertCol []

/-- The table state reached after rendering an array-of-objects: the rows
as committed cell lists and the discovered column list. -/
def tableFinal (rows : List (List (String × String))) : TableFormatterState :=
  ⟨false, [], [], rows, firstSeenColumns ((rows.flatten).map Prod.fst), "", ""⟩

/-- The polymorphic `Formatter` base class over a renderer state `σ`.
The fields with defaults embed the inline member functions of
`src/src/common/Formatter.h`:
`dump_bool` (lines 61-64) goes through the formatted-value path with the
unquoted literal text, and the three `_with_attrs` entry points
(lines 73-84) degrade to the unattributed forms. A concrete renderer that
does not override a defaulted field inherits exactly the base behaviour. -/
structure Formatter (σ : Type) where
  open_array_section : σ → String → σ
  open_object_section : σ → String → σ
  dump_string : σ → String → String → σ
  dump_format_unquoted : σ → String → String → List String → σ
  dump_bool : σ → String → Bool → σ :=
    fun st name b => dump_format_unquoted st name "%s" [if b then "true" else "false"]
  open_array_section_with_attrs : σ → String → List (String × String) → σ :=
    fun st name _attrs => open_array_section st name
  open_object_section_with_attrs : σ → String → List (String × String) → σ :=
    fun st name _attrs => open_object_section st name
  dump_string_with_attrs : σ → String → String → List (String × String) → σ :=
    fun st name s _attrs => dump_string st name s

/-- The `JSONFormatter` as an instance of the base contract. It overrides
none of the defaulted entry points (header lines 87-125 declare no
`dump_bool` and no `_with_attrs` members). -/
def JSONFormatter.renderer : Formatter JSONFormatterState where
  open_array_section := fun st n => JSONFormatter.open_section st n true
  open_object_section := fun st n => JSONFormatter.open_section st n false
  dump_string := JSONFormatter.dump_string
  dump_format_unquoted := JSONFormatter.dump_format_unquoted

/-- The `XMLFormatter` as an instance of the base contract. It overrides
the three `_with_attrs` entry points (header lines 148-151), passing the
attribute list through into the opening tag. -/
def XMLFormatter.renderer : Formatter XMLFormatterState where
  open_array_section := fun st n => XMLFormatter.open_section st n ""
  open_object_section := fun st n => XMLFormatter.open_section st n ""
  dump_string := XMLFormatter.dump_string
  dump_format_unquoted := XMLFormatter.dump_format_unquoted
  open_array_section_with_attrs := fun st n attrs =>
    XMLFormatter.open_section st n (XMLFormatter.get_attrs_str attrs)
  open_object_section_with_attrs := fun st n attrs =>
    XMLFormatter.open_section st n (XMLFormatter.get_attrs_str attrs)
  dump_string_with_attrs := fun st n s attrs =>
    XMLFormatter.dump_string_with_attrs st n s attrs

/-- Modelled from the spec: the table renderer's approximated attribute
support (`TableFormatter::get_attrs_str`, an inline bracketed annotation
merged into the cell/section text). -/
def TableFormatter.attrs_str (attrs : List (String × String)) : String :=
  if attrs = [] then ""
  else
    " (" ++ (attrs.map fun p => p.1 ++ "=" ++ p.2 ++ " ").foldl
      (fun a b => a ++ b) "" ++ ")"

/-- The `TableFormatter` as an instance of the base contract. It overrides
the three `_with_attrs` entry points (header lines 176-177 and 185),
merging the rendered attribute text into the section or cell text. -/
def TableFormatter.renderer : Formatter TableFormatterState where
  open_array_section := fun st n => TableFormatter.open_section st n true
  open_object_section := fun st n => TableFormatter.open_section st n false
  dump_string := TableFormatter.dump_string
  dump_format_unquoted := TableFormatter.dump_format_unquoted
  open_array_section_with_attrs := fun st n attrs =>
    TableFormatter.open_section st (n ++ TableFormatter.attrs_str attrs) true
  open_object_section_with_attrs := fun st n attrs =>
    TableFormatter.open_section st (n ++ TableFormatter.attrs_str attrs) false
  dump_string_with_attrs := fun st n s attrs =>
    TableFormatter.dump_string st n (s ++ TableFormatter.attrs_str attrs)

/-- The concrete renderer kinds the factory can produce. -/
inductive FormatterKind where
  | json (pretty : Bool)
  | xml (pretty : Bool)
  | table (keyval : Bool)
deriving DecidableEq

/-- Modelled from the spec (section 6): the name tokens the factory
recognizes. An unrecognized token (the empty string included) maps to
nothing. -/
def formatterKindOfName (s : String) : Option FormatterKind :=
  if s = "json" then some (FormatterKind.json false)
  else if s = "json-pretty" then some (FormatterKind.json true)
  else if s = "xml" then some (FormatterKind.xml false)
  else if s = "xml-pretty" then some (FormatterKind.xml true)
  else if s = "table" then some (FormatterKind.table false)
  else if s = "table-kv" then some (FormatterKind.table true)
  else none

namespace Formatter

/-- Modelled from the spec: `Formatter::create(type, default_type, fallback)`
— an unknown type name falls back to the default, then to the fallback;
when none of them names a renderer, construction fails and `none` is
reported to the caller (a null result, distinct from the fail-fast aborts
of structural misuse). -/
def create3 (type_name default_type fallback : String) : Option FormatterKind :=
  match formatterKindOfName type_name with
  | some k => some k
  | none =>
    match formatterKindOfName default_type with
    | some k => some k
    | none => formatterKindOfName fallback

/-- From `src/src/common/Formatter.h` lines 32-35:
`create(type, default_type)` forwards with an empty fallback. -/
def create2 (type_name default_type : String) : Option FormatterKind :=
  create3 type_name default_type ""

/-- From `src/src/common/Formatter.h` lines 36-38:
`create(type)` forwards with default `json-pretty` and empty fallback. -/
def create1 (type_name : String) : Option FormatterKind :=
  create2 type_name "json-pretty"

end Formatter

/-- A ceph `bufferlist`, embedded as its list of appended segments. -/
def Bufferlist : Type := List String

/-- `bufferlist::append` of one string segment. -/
def Bufferlist.append (bl : Bufferlist) (s : String) : Bufferlist :=
  List.append bl [s]

/-- The byte contents of a bufferlist: its segments in order. -/
def Bufferlist.contents (bl : Bufferlist) : String :=
  List.foldl (fun a b => a ++ b) "" bl

/-- From `src/src/common/Formatter.h` lines 44-49:
`Formatter::flush(bufferlist& bl)` renders `flush(std::ostream&)` into a
fresh stream and appends the resulting text to `bl`. Parameterized by the
renderer's stream-flush function. -/
def Formatter.flush_bl {σ : Type} (flush_os : σ → String) (st : σ)
    (bl : Bufferlist) : Bufferlist :=
  bl.append (flush_os st)

/-- Claim C1: for the call sequence `open_object_section("enclosing")`,
`dump_string("name","a")`, `dump_int("id",1)`, `close_section()`, flush,
the JSON renderer in compact mode produces exactly
`\x7b"name":"a","id":1\x7d` (the braces being the enclosing object), and
the compact XML renderer produces `<name>a</name><id>1</id>` wrapped in
the `<enclosing>` tag named by the open call. -/
theorem c1_example_outputs :
    (jsonExec exampleOps (JSONFormatter.init false)).map JSONFormatter.flush_str =
      some "\x7b\"name\":\"a\",\"id\":1\x7d" ∧
    (xmlExec exampleOps (XMLFormatter.init false)).map XMLFormatter.flush_str =
      some "<enclosing><name>a</name><id>1</id></enclosing>" :=
  ⟨by decide, by decide⟩

/-- Claim C2: for every renderer, `close_section` with no open section
(empty section stack) is a contract violation that fails fast — embedded
as the step returning `none` — rather than silently succeeding. -/
theorem c2_close_empty_fails (sj : JSONFormatterState) (sx : XMLFormatterState)
    (st : TableFormatterState) (hj : sj.m_stack = []) (hx : sx.m_sections = [])
    (ht : st.m_section = []) :
    jsonStep FOp.closeSec sj = none ∧ xmlStep FOp.closeSec sx = none ∧
      tableStep FOp.closeSec st = none := by
  refine ⟨?_, ?_, ?_⟩
  · simp only [jsonStep, JSONFormatter.close_section]
    cases hp : sj.m_is_pending_string <;>
      simp [JSONFormatter.finish_pending_string, JSONFormatter.emit_entry,
        JSONFormatter.print_name, hj, hp]
  · simp only [xmlStep, XMLFormatter.close_section]
    by_cases hp : sx.m_pending_string_name = "" <;>
      simp [XMLFormatter.finish_pending_string, XMLFormatter.emit_leaf, hx, hp]
  · simp only [tableStep, TableFormatter.close_section]
    by_cases hp : st.m_pending_name = "" <;>
      simp [TableFormatter.finish_pending_string, TableFormatter.add_cell, ht, hp]

/-- Witness for C2 at the freshly constructed renderers. -/
theorem c2_close_empty_fails_witness :
    (JSONFormatter.init false).m_stack = [] ∧
    (XMLFormatter.init false).m_sections = [] ∧
    (TableFormatter.init false).m_section = [] ∧
    (jsonStep FOp.closeSec (JSONFormatter.init false) = none ∧
     xmlStep FOp.closeSec (XMLFormatter.init false) = none ∧
     tableStep FOp.closeSec (TableFormatter.init false) = none) :=
  ⟨rfl, rfl, rfl,
   c2_close_empty_fails (JSONFormatter.init false) (XMLFormatter.init false)
     (TableFormatter.init false) rfl rfl rfl⟩

/-- Claim C3: none of the three renderers overrides `dump_bool`, so for
every name and boolean it behaves exactly as
`dump_format_unquoted(name, "%s", "true" / "false")`; concretely the
boolean is rendered as the unquoted literal `true`/`false` (shown on the
JSON renderer, where a quoted rendering would have added quotes). -/
theorem c3_dump_bool_default :
    (∀ (st : JSONFormatterState) (name : String) (b : Bool),
        JSONFormatter.renderer.dump_bool st name b =
          JSONFormatter.renderer.dump_format_unquoted st name "%s"
            [if b then "true" else "false"]) ∧
    (∀ (st : XMLFormatterState) (name : String) (b : Bool),
        XMLFormatter.renderer.dump_bool st name b =
          XMLFormatter.renderer.dump_format_unquoted st name "%s"
            [if b then "true" else "false"]) ∧
    (∀ (st : TableFormatterState) (name : String) (b : Bool),
        TableFormatter.renderer.dump_bool st name b =
          TableFormatter.renderer.dump_format_unquoted st name "%s"
            [if b then "true" else "false"]) ∧
    (JSONFormatter.renderer.dump_bool (JSONFormatter.init false) "b" true).m_ss
        = "true" ∧
    (JSONFormatter.renderer.dump_bool (JSONFormatter.init false) "b" false).m_ss
        = "false" :=
  ⟨fun _ _ _ => rfl, fun _ _ _ => rfl, fun _ _ _ => rfl, by decide, by decide⟩

/-- Claim C4: the JSON renderer does not override the `_with_attrs` entry
points, so they coincide with the unattributed forms for every attribute
list; the XML and Table renderers do override them and pass the attributes
through (shown by a concrete attribute list changing their output). -/
theorem c4_with_attrs_defaults :
    (∀ (st : JSONFormatterState) (n : String) (attrs : List (String × String)),
        JSONFormatter.renderer.open_array_section_with_attrs st n attrs =
          JSONFormatter.renderer.open_array_section st n) ∧
    (∀ (st : JSONFormatterState) (n : String) (attrs : List (String × String)),
        JSONFormatter.renderer.open_object_section_with_attrs st n attrs =
          JSONFormatter.renderer.open_object_section st n) ∧
    (∀ (st : JSONFormatterState) (n s : String) (attrs : List (String × String)),
        JSONFormatter.renderer.dump_string_with_attrs st n s attrs =
          JSONFormatter.renderer.dump_string st n s) ∧
    (XMLFormatter.renderer.open_array_section_with_attrs
        (XMLFormatter.init false) "a" [("k", "v")]).m_ss ≠
      (XMLFormatter.renderer.open_array_section (XMLFormatter.init false) "a").m_ss ∧
    (XMLFormatter.renderer.open_object_section_with_attrs
        (XMLFormatter.init false) "a" [("k", "v")]).m_ss ≠
      (XMLFormatter.renderer.open_object_section (XMLFormatter.init false) "a").m_ss ∧
    (XMLFormatter.renderer.dump_string_with_attrs
        (XMLFormatter.init false) "a" "s" [("k", "v")]).m_ss ≠
      (XMLFormatter.renderer.dump_string (XMLFormatter.init false) "a" "s").m_ss ∧
    (TableFormatter.renderer.open_object_section_with_attrs
        (TableFormatter.init false) "a" [("k", "v")]).m_section ≠
      (TableFormatter.renderer.open_object_section (TableFormatter.init false) "a").m_section ∧
    (TableFormatter.renderer.dump_string_with_attrs
        (TableFormatter.init false) "a" "s" [("k", "v")]).m_row ≠
      (TableFormatter.renderer.dump_string (TableFormatter.init false) "a" "s").m_row :=
  ⟨fun _ _ _ => rfl, fun _ _ _ => rfl, fun _ _ _ _ => rfl,
   by decide, by decide, by decide, by decide, by decide⟩

/-- Claim C5: `Formatter::create` with an unknown type name returns a
renderer of the provided default type, and with an unknown type name and
an unset (empty) default the construction fails, reported to the caller
as `none`. -/
theorem c5_create_fallback (t d : String)
    (ht : formatterKindOfName t = none) :
    (∀ k, formatterKindOfName d = some k → Formatter.create2 t d = some k) ∧
    (d = "" → Formatter.create2 t d = none) := by
  constructor
  · intro k hk
    simp [Formatter.create2, Formatter.create3, ht, hk]
  · intro hd
    subst hd
    simp [Formatter.create2, Formatter.create3, ht,
      show formatterKindOfName "" = none by decide]

/-- Witness for C5 at an unknown type name, once with a known default and
once with the unset default. -/
theorem c5_create_fallback_witness :
    formatterKindOfName "bogus" = none ∧
    formatterKindOfName "xml" = some (FormatterKind.xml false) ∧
    Formatter.create2 "bogus" "xml" = some (FormatterKind.xml false) ∧
    Formatter.create2 "bogus" "" = none :=
  ⟨by decide, by decide,
   (c5_create_fallback "bogus" "xml" (by decide)).1 _ (by decide),
   (c5_create_fallback "bogus" "" (by decide)).2 rfl⟩

/-- The contents of a bufferlist after appending one segment. -/
theorem Bufferlist.contents_append (bl : Bufferlist) (s : String) :
    (bl.append s).contents = bl.contents ++ s := by
  simp [Bufferlist.contents, Bufferlist.append, List.foldl_append]

/-- Text is escaped-safe when it contains none of the five XML reserved
characters (such text passes through escaping unchanged). -/
def xmlEscapedSafe (s : String) : Bool :=
  s.data.all fun c => !(isXmlSpecial c)

/-- The tail of a legal entity occurrence: what must follow a `&` for it
not to be bare. -/
def entityTail : List Char → Bool
  | 'a' :: 'm' :: 'p' :: ';' :: _ => true
  | 'l' :: 't' :: ';' :: _ => true
  | 'g' :: 't' :: ';' :: _ => true
  | 'q' :: 'u' :: 'o' :: 't' :: ';' :: _ => true
  | 'a' :: 'p' :: 'o' :: 's' :: ';' :: _ => true
  | _ => false

/-- `true` when every `&` in the character list begins one of the five
entities, i.e. the text contains no bare `&`. -/
def noBareAmp : List Char → Bool
  | [] => true
  | c :: rest => (if c = '&' then entityTail rest else true) && noBareAmp rest

/-- Escaping one reserved-free character is the identity. -/
theorem escape_xml_char_id (c : Char) (h : isXmlSpecial c = false) :
    XMLFormatter.escape_xml_char c = [c] := by
  simp only [isXmlSpecial, Bool.or_eq_false_iff, decide_eq_false_iff_not] at h
  simp [XMLFormatter.escape_xml_char, h.1.1.1.1, h.1.1.1.2, h.1.1.2, h.1.2, h.2]

/-- Escaping a reserved-free character list is the identity. -/
theorem escape_xml_flat_id : ∀ l : List Char,
    (∀ c ∈ l, isXmlSpecial c = false) →
    (l.map XMLFormatter.escape_xml_char).flatten = l
  | [], _ => rfl
  | c :: cs, h => by
    simp only [List.map_cons, List.flatten_cons,
      escape_xml_char_id c (h c (by simp)),
      escape_xml_flat_id cs (fun x hx => h x (by simp [hx]))]
    rfl

/-- One escaped chunk prepended to amp-safe text stays amp-safe. -/
theorem noBareAmp_chunk (c : Char) (l : List Char) (h : noBareAmp l = true) :
    noBareAmp (XMLFormatter.escape_xml_char c ++ l) = true := by
  by_cases h1 : c = '&'
  · subst h1; exact h
  by_cases h2 : c = '<'
  · subst h2; exact h
  by_cases h3 : c = '>'
  · subst h3; exact h
  by_cases h4 : c = '\"'
  · subst h4; exact h
  by_cases h5 : c = aposChar
  · subst h5; exact h
  · simp [XMLFormatter.escape_xml_char, h1, h2, h3, h4, h5, noBareAmp, h]

/-- Escaped text contains no bare `&`. -/
theorem noBareAmp_escape_list : ∀ l : List Char,
    noBareAmp ((l.map XMLFormatter.escape_xml_char).flatten) = true
  | [] => rfl
  | c :: cs => by
    simpa using noBareAmp_chunk c _ (noBareAmp_escape_list cs)

/-- Neither `<` nor `\"` appears in the escaping of any character. -/
theorem escape_xml_char_no_lt_quot (c : Char) :
    '<' ∉ XMLFormatter.escape_xml_char c ∧ '\"' ∉ XMLFormatter.escape_xml_char c := by
  by_cases h1 : c = '&'
  · subst h1; exact ⟨by decide, by decide⟩
  by_cases h2 : c = '<'
  · subst h2; exact ⟨by decide, by decide⟩
  by_cases h3 : c = '>'
  · subst h3; exact ⟨by decide, by decide⟩
  by_cases h4 : c = '\"'
  · subst h4; exact ⟨by decide, by decide⟩
  by_cases h5 : c = aposChar
  · subst h5; exact ⟨by decide, by decide⟩
  · simp [XMLFormatter.escape_xml_char, h1, h2, h3, h4, h5]
    exact ⟨fun hc => h2 hc.symm, fun hc => h4 hc.symm⟩

/-- Claim C8: XML escaping is the identity on escaped-safe text (text with
no reserved character), hence idempotent there; and its output never
contains a bare `&`, never contains `<`, and never contains a `\"` — so an
attribute value rendered by `get_attrs_str` between its quotes holds no
unescaped quote. -/
theorem c8_escape_xml_props (s : String) :
    (xmlEscapedSafe s = true → XMLFormatter.escape_xml_str s = s) ∧
    (xmlEscapedSafe s = true →
      XMLFormatter.escape_xml_str (XMLFormatter.escape_xml_str s) =
        XMLFormatter.escape_xml_str s) ∧
    noBareAmp (XMLFormatter.escape_xml_str s).data = true ∧
    '<' ∉ (XMLFormatter.escape_xml_str s).data ∧
    '\"' ∉ (XMLFormatter.escape_xml_str s).data := by
  have hid : xmlEscapedSafe s = true → XMLFormatter.escape_xml_str s = s := by
    intro h
    simp only [xmlEscapedSafe, List.all_eq_true, Bool.not_eq_true',
      decide_eq_false_iff_not] at h
    show String.mk ((s.data.map XMLFormatter.escape_xml_char).flatten) = s
    rw [escape_xml_flat_id s.data (fun c hc => by
      have := h c hc
      simpa using this)]
  refine ⟨hid, fun h => by simp [hid h], ?_, ?_, ?_⟩
  · exact noBareAmp_escape_list s.data
  · show '<' ∉ (s.data.map XMLFormatter.escape_xml_char).flatten
    simp only [List.mem_flatten, List.mem_map, not_exists]
    rintro l ⟨⟨c, _, rfl⟩, hmem⟩
    exact (escape_xml_char_no_lt_quot c).1 hmem
  · show '\"' ∉ (s.data.map XMLFormatter.escape_xml_char).flatten
    simp only [List.mem_flatten, List.mem_map, not_exists]
    rintro l ⟨⟨c, _, rfl⟩, hmem⟩
    exact (escape_xml_char_no_lt_quot c).2 hmem

/-- Witness for C8 on concrete inputs: escaped-safe text is unchanged, and
text holding reserved characters escapes to bare-`&`-free output. -/
theorem c8_escape_xml_props_witness :
    xmlEscapedSafe "ab" = true ∧
    XMLFormatter.escape_xml_str "ab" = "ab" ∧
    noBareAmp (XMLFormatter.escape_xml_str "a<b&c").data = true :=
  ⟨by decide, (c8_escape_xml_props "ab").1 (by decide),
   (c8_escape_xml_props "a<b&c").2.2.1⟩

/-- `JSONFormatter.finish_pending_string` is idempotent. -/
theorem json_finish_idem (st : JSONFormatterState) :
    JSONFormatter.finish_pending_string (JSONFormatter.finish_pending_string st) =
      JSONFormatter.finish_pending_string st := by
  by_cases h : st.m_is_pending_string <;>
    simp [JSONFormatter.finish_pending_string, h]

/-- After `JSONFormatter.finish_pending_string` no Pending Scalar is
outstanding. -/
theorem json_finish_flag (st : JSONFormatterState) :
    (JSONFormatter.finish_pending_string st).m_is_pending_string = false := by
  by_cases h : st.m_is_pending_string <;>
    simp [JSONFormatter.finish_pending_string, h]

/-- `XMLFormatter.finish_pending_string` is idempotent. -/
theorem xml_finish_idem (st : XMLFormatterState) :
    XMLFormatter.finish_pending_string (XMLFormatter.finish_pending_string st) =
      XMLFormatter.finish_pending_string st := by
  by_cases h : st.m_pending_string_name = "" <;>
    simp [XMLFormatter.finish_pending_string, h]

/-- After `XMLFormatter.finish_pending_string` no Pending Scalar is
outstanding. -/
theorem xml_finish_flag (st : XMLFormatterState) :
    (XMLFormatter.finish_pending_string st).m_pending_string_name = "" := by
  by_cases h : st.m_pending_string_name = "" <;>
    simp [XMLFormatter.finish_pending_string, h]

/-- `TableFormatter.finish_pending_string` is idempotent. -/
theorem table_finish_idem (st : TableFormatterState) :
    TableFormatter.finish_pending_string (TableFormatter.finish_pending_string st) =
      TableFormatter.finish_pending_string st := by
  by_cases h : st.m_pending_name = "" <;>
    simp [TableFormatter.finish_pending_string, h]

/-- After `TableFormatter.finish_pending_string` no Pending Scalar is
outstanding. -/
theorem table_finish_flag (st : TableFormatterState) :
    (TableFormatter.finish_pending_string st).m_pending_name = "" := by
  by_cases h : st.m_pending_name = "" <;>
    simp [TableFormatter.finish_pending_string, h]

/-- Every JSON contract call acts as if the Pending Scalar had been
finalized just before it. -/
theorem jsonStep_after_finish (op : FOp) (st : JSONFormatterState) :
    jsonStep op (JSONFormatter.finish_pending_string st) = jsonStep op st := by
  cases op <;>
    simp [jsonStep, JSONFormatter.open_section, JSONFormatter.close_section,
      JSONFormatter.dump_string, JSONFormatter.dump_int,
      JSONFormatter.dump_unsigned, JSONFormatter.dump_format_unquoted,
      JSONFormatter.dump_stream, json_finish_idem]

/-- Every XML contract call acts as if the Pending Scalar had been
finalized just before it. -/
theorem xmlStep_after_finish (op : FOp) (st : XMLFormatterState) :
    xmlStep op (XMLFormatter.finish_pending_string st) = xmlStep op st := by
  cases op <;>
    simp [xmlStep, XMLFormatter.open_section, XMLFormatter.close_section,
      XMLFormatter.dump_string, XMLFormatter.dump_int,
      XMLFormatter.dump_unsigned, XMLFormatter.dump_format_unquoted,
      XMLFormatter.dump_stream, XMLFormatter.emit_leaf, xml_finish_idem]

/-- Every table contract call acts as if the Pending Scalar had been
finalized just before it. -/
theorem tableStep_after_finish (op : FOp) (st : TableFormatterState) :
    tableStep op (TableFormatter.finish_pending_string st) = tableStep op st := by
  cases op <;>
    simp [tableStep, TableFormatter.open_section, TableFormatter.close_section,
      TableFormatter.dump_string, TableFormatter.dump_int,
      TableFormatter.dump_unsigned, TableFormatter.dump_format_unquoted,
      TableFormatter.dump_stream, TableFormatter.add_cell, table_finish_idem]

/-- No JSON contract call other than `dump_stream` leaves a Pending
Scalar outstanding. -/
theorem jsonStep_not_pending (op : FOp) (h : op.isStream = false)
    (st st' : JSONFormatterState) (hs : jsonStep op st = some st') :
    st'.m_is_pending_string = false := by
  cases op with
  | dumpStream n v => simp [FOp.isStream] at h
  | closeSec =>
    simp only [jsonStep, JSONFormatter.close_section] at hs
    split at hs
    · cases hs
    · cases hs
      exact json_finish_flag st
  | openObj n =>
    cases hs
    exact json_finish_flag st
  | openArr n =>
    cases hs
    exact json_finish_flag st
  | dumpString n s =>
    cases hs
    exact json_finish_flag st
  | dumpInt n i =>
    cases hs
    exact json_finish_flag st
  | dumpUnsigned n u =>
    cases hs
    exact json_finish_flag st
  | dumpFormatUnquoted n fmt args =>
    cases hs
    exact json_finish_flag st

/-- No XML contract call other than `dump_stream` leaves a Pending Scalar
outstanding. -/
theorem xmlStep_not_pending (op : FOp) (h : op.isStream = false)
    (st st' : XMLFormatterState) (hs : xmlStep op st = some st') :
    st'.m_pending_string_name = "" := by
  cases op with
  | dumpStream n v => simp [FOp.isStream] at h
  | closeSec =>
    simp only [xmlStep, XMLFormatter.close_section] at hs
    split at hs
    · cases hs
    · cases hs
      exact xml_finish_flag st
  | openObj n =>
    cases hs
    exact xml_finish_flag st
  | openArr n =>
    cases hs
    exact xml_finish_flag st
  | dumpString n s =>
    cases hs
    exact xml_finish_flag st
  | dumpInt n i =>
    cases hs
    exact xml_finish_flag st
  | dumpUnsigned n u =>
    cases hs
    exact xml_finish_flag st
  | dumpFormatUnquoted n fmt args =>
    cases hs
    exact xml_finish_flag st

/-- No table contract call other than `dump_stream` leaves a Pending
Scalar outstanding. -/
theorem tableStep_not_pending (op : FOp) (h : op.isStream = false)
    (st st' : TableFormatterState) (hs : tableStep op st = some st') :
    st'.m_pending_name = "" := by
  cases op with
  | dumpStream n v => simp [FOp.isStream] at h
  | closeSec =>
    simp only [tableStep, TableFormatter.close_section] at hs
    split at hs
    · cases hs
    · split at hs <;>
      · cases hs
        exact table_finish_flag st
  | openObj n =>
    cases hs
    exact table_finish_flag st
  | openArr n =>
    cases hs
    exact table_finish_flag st
  | dumpString n s =>
    cases hs
    exact table_finish_flag st
  | dumpInt n i =>
    cases hs
    exact table_finish_flag st
  | dumpUnsigned n u =>
    cases hs
    exact table_finish_flag st
  | dumpFormatUnquoted n fmt args =>
    cases hs
    exact table_finish_flag st

/-- Claim C9: for every renderer, at most one Pending Scalar exists at a
time (each state has a single slot, refilled by `dump_stream` only after
finalizing its predecessor) and it is finalized eagerly at the start of
every other mutating operation and at flush: every contract call computes
the same result on `st` as on the eagerly finalized
`finish_pending_string st`, no non-stream call leaves a Pending Scalar
outstanding, and flushing first finalizes the Pending Scalar. -/
theorem c9_pending_scalar_eager (op : FOp) (h : op.isStream = false) :
    (∀ st : JSONFormatterState,
        jsonStep op (JSONFormatter.finish_pending_string st) = jsonStep op st) ∧
    (∀ st st' : JSONFormatterState,
        jsonStep op st = some st' → st'.m_is_pending_string = false) ∧
    (∀ st : XMLFormatterState,
        xmlStep op (XMLFormatter.finish_pending_string st) = xmlStep op st) ∧
    (∀ st st' : XMLFormatterState,
        xmlStep op st = some st' → st'.m_pending_string_name = "") ∧
    (∀ st : TableFormatterState,
        tableStep op (TableFormatter.finish_pending_string st) = tableStep op st) ∧
    (∀ st st' : TableFormatterState,
        tableStep op st = some st' → st'.m_pending_name = "") ∧
    (∀ st : JSONFormatterState,
        JSONFormatter.flush_str (JSONFormatter.finish_pending_string st) =
          JSONFormatter.flush_str st) ∧
    (∀ st : XMLFormatterState,
        XMLFormatter.flush_str (XMLFormatter.finish_pending_string st) =
          XMLFormatter.flush_str st) ∧
    (∀ st : TableFormatterState,
        TableFormatter.flush_str (TableFormatter.finish_pending_string st) =
          TableFormatter.flush_str st) :=
  ⟨fun st => jsonStep_after_finish op st,
   fun st st' => jsonStep_not_pending op h st st',
   fun st => xmlStep_after_finish op st,
   fun st st' => xmlStep_not_pending op h st st',
   fun st => tableStep_after_finish op st,
   fun st st' => tableStep_not_pending op h st st',
   fun st => by simp [JSONFormatter.flush_str, json_finish_idem],
   fun st => by simp [XMLFormatter.flush_str, xml_finish_idem],
   fun st => by simp [TableFormatter.flush_str, table_finish_idem]⟩

/-- Witness for C9: a `dump_string` call on a JSON state with an
outstanding Pending Scalar equals the call on the eagerly finalized
state. -/
theorem c9_pending_scalar_eager_witness :
    FOp.isStream (FOp.dumpString "k" "v") = false ∧
    jsonStep (FOp.dumpString "k" "v")
        (JSONFormatter.finish_pending_string
          (JSONFormatter.dump_stream (JSONFormatter.init false) "p" "q")) =
      jsonStep (FOp.dumpString "k" "v")
        (JSONFormatter.dump_stream (JSONFormatter.init false) "p" "q") :=
  ⟨rfl, (c9_pending_scalar_eager (FOp.dumpString "k" "v") rfl).1
    (JSONFormatter.dump_stream (JSONFormatter.init false) "p" "q")⟩

/-- Claim C10: for every renderer state and bufferlist, the
`flush(bufferlist&)` overload appends to the bufferlist exactly the bytes
the `flush(std::ostream&)` overload produces from the same state, leaving
the bufferlist's prior contents intact as a prefix. -/
theorem c10_flush_bl_appends (bl : Bufferlist) (sj : JSONFormatterState)
    (sx : XMLFormatterState) (st : TableFormatterState) :
    (Formatter.flush_bl JSONFormatter.flush_str sj bl).contents =
        bl.contents ++ JSONFormatter.flush_str sj ∧
    (Formatter.flush_bl XMLFormatter.flush_str sx bl).contents =
        bl.contents ++ XMLFormatter.flush_str sx ∧
    (Formatter.flush_bl TableFormatter.flush_str st bl).contents =
        bl.contents ++ TableFormatter.flush_str st :=
  ⟨Bufferlist.contents_append bl _, Bufferlist.contents_append bl _,
   Bufferlist.contents_append bl _⟩

/-- Sequencing of table executions over concatenated call lists. -/
theorem tableExec_append (l1 l2 : List FOp) :
    ∀ st, tableExec (l1 ++ l2) st = (tableExec l1 st).bind (tableExec l2) := by
  induction l1 with
  | nil => intro st; rfl
  | cons op rest ih =>
    intro st
    simp only [List.cons_append, tableExec]
    cases tableStep op st with
    | none => rfl
    | some st1 => exact ih st1

/-- Executing the leaf dumps of one row appends its cells to the row under
construction and discovers its columns in order. -/
theorem tableExec_dumps (row : List (String × String)) :
    ∀ st : TableFormatterState, st.m_pending_name = "" →
    tableExec (row.map fun p => FOp.dumpString p.1 p.2) st =
      some { st with
              m_row := st.m_row ++ row,
              m_column_name :=
                row.foldl (fun cs p => tableInsertCol cs p.1) st.m_column_name } := by
  induction row with
  | nil => intro st _; simp [tableExec]
  | cons p rest ih =>
    intro st hp
    simp only [List.map_cons, tableExec, tableStep, TableFormatter.dump_string,
      TableFormatter.finish_pending_string, hp, if_pos, TableFormatter.add_cell]
    rw [ih _ rfl]
    simp [List.append_assoc]

/-- Executing one row (object open, leaf dumps, close) inside a
controlling array commits exactly that row's cells and discovers its
columns. -/
theorem tableExec_rowOps (rn : String) (row : List (String × String))
    (st : TableFormatterState) (hp : st.m_pending_name = "")
    (hr : st.m_row = []) (ha : TableFormatter.topIsArray st.m_section = true) :
    tableExec (tableRowOps rn row) st =
      some { st with
              m_vec := st.m_vec ++ [row],
              m_column_name :=
                row.foldl (fun cs p => tableInsertCol cs p.1) st.m_column_name } := by
  simp only [tableRowOps, tableExec, tableStep, TableFormatter.open_section,
    TableFormatter.finish_pending_string, hp, if_pos, List.append_eq]
  rw [tableExec_append, tableExec_dumps row _ rfl]
  simp only [Option.bind_some, tableExec, tableStep, TableFormatter.close_section,
    TableFormatter.finish_pending_string, if_pos]
  simp [ha, hr]

/-- Executing a list of rows inside a controlling array commits exactly
those rows, in order, and accumulates the discovered columns across all of
them. -/
theorem tableExec_rows (rn : String) (rows : List (List (String × String))) :
    ∀ st : TableFormatterState, st.m_pending_name = "" → st.m_row = [] →
    TableFormatter.topIsArray st.m_section = true →
    tableExec ((rows.map (tableRowOps rn)).flatten) st =
      some { st with
              m_vec := st.m_vec ++ rows,
              m_column_name :=
                rows.foldl
                  (fun cs row => row.foldl (fun cs p => tableInsertCol cs p.1) cs)
                  st.m_column_name } := by
  induction rows with
  | nil => intro st _ _ _; simp [tableExec]
  | cons r rs ih =>
    intro st hp hr ha
    simp only [List.map_cons, List.flatten_cons]
    rw [tableExec_append, tableExec_rowOps rn r st hp hr ha]
    simp only [Option.some_bind]
    rw [ih { st with
              m_vec := st.m_vec ++ [r],
              m_column_name :=
                r.foldl (fun cs p => tableInsertCol cs p.1) st.m_column_name }
          hp hr ha]
    simp [List.append_assoc]

/-- Row-by-row column accumulation equals the left fold of
`tableInsertCol` over the concatenated leaf names of all rows. -/
theorem foldl_insert_rows (rows : List (List (String × String))) :
    ∀ cols : List String,
    rows.foldl (fun cs row => row.foldl (fun cs p => tableInsertCol cs p.1) cs) cols =
      ((rows.flatten).map Prod.fst).foldl tableInsertCol cols := by
  induction rows with
  | nil => intro cols; rfl
  | cons r rs ih =>
    intro cols
    simp only [List.foldl_cons, List.flatten_cons, List.map_append,
      List.foldl_append, List.foldl_map]
    rw [ih]
    simp only [List.foldl_map]

/-- Running the whole array-of-objects call sequence from a fresh tabular
renderer reaches exactly `tableFinal rows`. -/
theorem tableExec_arrayOps (an rn : String)
    (rows : List (List (String × String))) :
    tableExec (tableArrayOps an rn rows) (TableFormatter.init false) =
      some (tableFinal rows) := by
  rw [show tableExec (tableArrayOps an rn rows) (TableFormatter.init false) =
        tableExec ((rows.map (tableRowOps rn)).flatten ++ [FOp.closeSec])
          ⟨false, [(an, true)], [], [], [], "", ""⟩ from rfl]
  rw [tableExec_append,
      tableExec_rows rn rows ⟨false, [(an, true)], [], [], [], "", ""⟩ rfl rfl rfl]
  simp only [Option.some_bind]
  simp [tableExec, tableStep, TableFormatter.close_section,
    TableFormatter.finish_pending_string, TableFormatter.topIsArray,
    tableFinal, firstSeenColumns, foldl_insert_rows]

/-- Membership in a column list after inserting one name. -/
theorem mem_tableInsertCol (cols : List String) (a c : String) :
    c ∈ tableInsertCol cols a ↔ c ∈ cols ∨ c = a := by
  by_cases h : a ∈ cols
  · simp only [tableInsertCol, if_pos h]
    constructor
    · exact Or.inl
    · rintro (hc | rfl)
      · exact hc
      · exact h
  · simp [tableInsertCol, h]

/-- Membership in a column list after folding in a list of names. -/
theorem mem_foldl_insert (l : List String) :
    ∀ (cols : List String) (c : String),
    c ∈ l.foldl tableInsertCol cols ↔ c ∈ cols ∨ c ∈ l := by
  induction l with
  | nil => simp
  | cons a rest ih =>
    intro cols c
    simp only [List.foldl_cons, ih, mem_tableInsertCol, List.mem_cons]
    tauto

/-- Inserting a name keeps the column list duplicate-free. -/
theorem nodup_tableInsertCol (cols : List String) (a : String)
    (h : cols.Nodup) : (tableInsertCol cols a).Nodup := by
  by_cases ha : a ∈ cols
  · simpa [tableInsertCol, ha] using h
  · simp [tableInsertCol, ha, List.nodup_append, h]

/-- Folding in names keeps the column list duplicate-free. -/
theorem nodup_foldl_insert (l : List String) :
    ∀ cols : List String, cols.Nodup → (l.foldl tableInsertCol cols).Nodup := by
  induction l with
  | nil => intro cols h; exact h
  | cons a rest ih => intro cols h; exact ih _ (nodup_tableInsertCol cols a h)

/-- Appending to the empty string is the identity. -/
theorem empty_append_str (s : String) : "" ++ s = s := by
  cases s; rfl

/-- Claim C6: for the tabular-mode Table renderer run over any
array-of-objects call sequence, the final column set is the union, in
first-seen order, of every leaf name dumped across all rows (a fold of
first-sight insertion, equivalently: a name is a column exactly when some
row dumped it, each column once); the committed rows are exactly the dumped
rows (no shifting), and a row in which a column's field was never dumped
renders a blank (all-spaces) cell at that column's position. -/
theorem c6_table_columns (an rn : String)
    (rows : List (List (String × String))) :
    tableExec (tableArrayOps an rn rows) (TableFormatter.init false) =
      some (tableFinal rows) ∧
    (tableFinal rows).m_vec = rows ∧
    (tableFinal rows).m_column_name =
      firstSeenColumns ((rows.flatten).map Prod.fst) ∧
    (∀ c, c ∈ (tableFinal rows).m_column_name ↔
        c ∈ (rows.flatten).map Prod.fst) ∧
    (tableFinal rows).m_column_name.Nodup ∧
    (∀ i j, TableFormatter.lookupCell (TableFormatter.colAt (tableFinal rows) j)
          (TableFormatter.rowAt (tableFinal rows) i) = none →
        TableFormatter.cellAt (tableFinal rows) i j =
          spacesStr (TableFormatter.col_width (tableFinal rows)
            (TableFormatter.colAt (tableFinal rows) j))) := by
  refine ⟨tableExec_arrayOps an rn rows, rfl, rfl, ?_, ?_, ?_⟩
  · intro c
    simpa [tableFinal, firstSeenColumns] using
      mem_foldl_insert ((rows.flatten).map Prod.fst) [] c
  · exact nodup_foldl_insert _ [] List.nodup_nil
  · intro i j h
    simp [TableFormatter.cellAt, h, TableFormatter.padTo, empty_append_str]

/-- Witness for C6: two rows dumping distinct fields `a` and `b`; the
first row never dumps `b`, and its cell in column position 1 (column `b`)
is blank. -/
theorem c6_table_columns_witness :
    TableFormatter.lookupCell
        (TableFormatter.colAt (tableFinal [[("a", "1")], [("b", "2")]]) 1)
        (TableFormatter.rowAt (tableFinal [[("a", "1")], [("b", "2")]]) 0) =
      none ∧
    TableFormatter.cellAt (tableFinal [[("a", "1")], [("b", "2")]]) 0 1 =
      spacesStr (TableFormatter.col_width (tableFinal [[("a", "1")], [("b", "2")]])
        (TableFormatter.colAt (tableFinal [[("a", "1")], [("b", "2")]]) 1)) :=
  ⟨by decide,
   (c6_table_columns "x" "r" [[("a", "1")], [("b", "2")]]).2.2.2.2.2 0 1 (by decide)⟩

/-- `nonWS` distributes over string append. -/
theorem nonWS_append (a b : String) : nonWS (a ++ b) = nonWS a ++ nonWS b := by
  simp only [nonWS, String.data_append, List.filter_append]
  rfl

/-- Space runs carry no non-whitespace characters. -/
theorem nonWS_spacesStr (n : Nat) : nonWS (spacesStr n) = "" := by
  induction n with
  | zero => rfl
  | succ k ih =>
    simp only [spacesStr, List.replicate] at ih ⊢
    simp only [nonWS] at ih ⊢
    exact ih

/-- The JSON pretty-mode whitespace token carries no non-whitespace
characters, in either mode. -/
theorem nonWS_ws_tok (p : Bool) (d : Nat) :
    nonWS (JSONFormatter.ws_tok p d) = "" := by
  cases p with
  | false => rfl
  | true =>
    show nonWS ("\n" ++ spacesStr (2 * d)) = ""
    rw [nonWS_append, nonWS_spacesStr]
    rfl

/-- The key separator token is `:` under `nonWS` in both modes. -/
theorem nonWS_colon_tok (p : Bool) :
    nonWS (JSONFormatter.colon_tok p) = ":" := by
  cases p <;> rfl

/-- The XML pretty-mode indentation carries no non-whitespace characters. -/
theorem nonWS_indent_tok (p : Bool) (d : Nat) :
    nonWS (XMLFormatter.indent_tok p d) = "" := by
  cases p with
  | false => rfl
  | true => exact nonWS_spacesStr (2 * d)

/-- The XML pretty-mode line end carries no non-whitespace characters. -/
theorem nonWS_nl_tok (p : Bool) : nonWS (XMLFormatter.nl_tok p) = "" := by
  cases p <;> rfl

/-- The simulation relation of Claim C7 for JSON: a pretty-mode state and
a compact-mode state that agree on everything but the buffer, whose
buffers agree on their non-whitespace characters. -/
def jsonR (sp sc : JSONFormatterState) : Prop :=
  sp.m_pretty = true ∧ sc.m_pretty = false ∧ sp.m_stack = sc.m_stack ∧
  sp.m_pending_name = sc.m_pending_name ∧
  sp.m_pending_string = sc.m_pending_string ∧
  sp.m_is_pending_string = sc.m_is_pending_string ∧
  nonWS sp.m_ss = nonWS sc.m_ss

/-- `print_name` yields the same updated stack in both modes, and its
emitted text differs only in whitespace. -/
theorem print_name_pair (stk : List json_formatter_stack_entry_d) (n : String) :
    (JSONFormatter.print_name true stk n).2 =
      (JSONFormatter.print_name false stk n).2 ∧
    nonWS (JSONFormatter.print_name true stk n).1 =
      nonWS (JSONFormatter.print_name false stk n).1 := by
  cases stk with
  | nil => exact ⟨rfl, rfl⟩
  | cons e rest =>
    refine ⟨rfl, ?_⟩
    simp only [JSONFormatter.print_name, nonWS_append, nonWS_ws_tok]
    congr 1
    by_cases hb : e.is_array <;> simp [hb, nonWS_append, nonWS_colon_tok]

/-- `print_name` preserves the stack depth. -/
theorem print_name_length (p : Bool) (stk : List json_formatter_stack_entry_d)
    (n : String) : (JSONFormatter.print_name p stk n).2.length = stk.length := by
  cases stk <;> simp [JSONFormatter.print_name]

/-- `emit_entry` preserves the C7 simulation relation. -/
theorem emit_entry_pair (sp sc : JSONFormatterState) (h : jsonR sp sc)
    (n body : String) :
    jsonR (JSONFormatter.emit_entry sp n body)
      (JSONFormatter.emit_entry sc n body) := by
  obtain ⟨hp, hc, hstk, hpn, hps, hpf, hss⟩ := h
  unfold JSONFormatter.emit_entry
  refine ⟨hp, hc, ?_, hpn, hps, hpf, ?_⟩
  · show (JSONFormatter.print_name sp.m_pretty sp.m_stack n).2 =
      (JSONFormatter.print_name sc.m_pretty sc.m_stack n).2
    rw [hp, hc, hstk]
    exact (print_name_pair sc.m_stack n).1
  · show nonWS (sp.m_ss ++ (JSONFormatter.print_name sp.m_pretty sp.m_stack n).1 ++ body) =
      nonWS (sc.m_ss ++ (JSONFormatter.print_name sc.m_pretty sc.m_stack n).1 ++ body)
    rw [hp, hc, hstk, nonWS_append, nonWS_append, nonWS_append, nonWS_append,
      hss, (print_name_pair sc.m_stack n).2]

/-- `finish_pending_string` preserves the C7 simulation relation. -/
theorem finish_pair (sp sc : JSONFormatterState) (h : jsonR sp sc) :
    jsonR (JSONFormatter.finish_pending_string sp)
      (JSONFormatter.finish_pending_string sc) := by
  have hpf := h.2.2.2.2.2.1
  unfold JSONFormatter.finish_pending_string
  rw [hpf, h.2.2.2.1, h.2.2.2.2.1]
  by_cases hb : sc.m_is_pending_string
  · simp only [hb, if_pos]
    have he := emit_entry_pair sp sc h sc.m_pending_name
      (JSONFormatter.print_quoted_string sc.m_pending_string)
    exact ⟨he.1, he.2.1, he.2.2.1, rfl, rfl, rfl, he.2.2.2.2.2.2⟩
  · simp only [hb, if_neg, Bool.false_eq_true, reduceIte]
    exact h

/-- `emit_entry` preserves the stack depth. -/
theorem emit_entry_length (st : JSONFormatterState) (n body : String) :
    (JSONFormatter.emit_entry st n body).m_stack.length = st.m_stack.length := by
  simp [JSONFormatter.emit_entry, print_name_length]

/-- `finish_pending_string` preserves the stack depth. -/
theorem finish_length (st : JSONFormatterState) :
    (JSONFormatter.finish_pending_string st).m_stack.length =
      st.m_stack.length := by
  unfold JSONFormatter.finish_pending_string
  by_cases hb : st.m_is_pending_string
  · simp [hb, emit_entry_length]
  · simp [hb]

/-- `open_section` preserves the C7 simulation relation. -/
theorem open_section_pair (sp sc : JSONFormatterState) (h : jsonR sp sc)
    (n : String) (ia : Bool) :
    jsonR (JSONFormatter.open_section sp n ia)
      (JSONFormatter.open_section sc n ia) := by
  have hf := finish_pair sp sc h
  obtain ⟨hp, hc, hstk, hpn, hps, hpf, hss⟩ := hf
  unfold JSONFormatter.open_section
  refine ⟨hp, hc, ?_, hpn, hps, hpf, ?_⟩
  · show (⟨0, ia⟩ :: (JSONFormatter.print_name _ _ n).2 :
        List json_formatter_stack_entry_d) = ⟨0, ia⟩ :: (JSONFormatter.print_name _ _ n).2
    rw [hp, hc, hstk]
    rw [(print_name_pair (JSONFormatter.finish_pending_string sc).m_stack n).1]
  · show nonWS (_ ++ (JSONFormatter.print_name _ _ n).1 ++ _) =
      nonWS (_ ++ (JSONFormatter.print_name _ _ n).1 ++ _)
    rw [hp, hc, hstk, nonWS_append, nonWS_append, nonWS_append, nonWS_append,
      hss, (print_name_pair (JSONFormatter.finish_pending_string sc).m_stack n).2]

/-- `open_section` grows the stack depth by one. -/
theorem open_section_length (st : JSONFormatterState) (n : String) (ia : Bool) :
    (JSONFormatter.open_section st n ia).m_stack.length =
      st.m_stack.length + 1 := by
  simp [JSONFormatter.open_section, print_name_length, finish_length]

/-- `close_section` in the two modes: fails together on an empty stack,
otherwise succeeds together preserving the C7 simulation relation and
shrinking the depth by one. -/
theorem close_section_pair (sp sc : JSONFormatterState) (h : jsonR sp sc)
    (hne : sp.m_stack ≠ []) :
    ∃ sp' sc', JSONFormatter.close_section sp = some sp' ∧
      JSONFormatter.close_section sc = some sc' ∧ jsonR sp' sc' ∧
      sp'.m_stack.length = sp.m_stack.length - 1 := by
  have hf := finish_pair sp sc h
  obtain ⟨hp, hc, hstk, hpn, hps, hpf, hss⟩ := hf
  have hlen : (JSONFormatter.finish_pending_string sp).m_stack.length =
      sp.m_stack.length := finish_length sp
  cases hs : (JSONFormatter.finish_pending_string sp).m_stack with
  | nil =>
    exfalso
    apply hne
    have h0 : sp.m_stack.length = 0 := by rw [← hlen, hs]; rfl
    exact List.length_eq_zero.mp h0
  | cons e rest =>
    refine ⟨{ JSONFormatter.finish_pending_string sp with
                m_ss := (JSONFormatter.finish_pending_string sp).m_ss ++
                  JSONFormatter.ws_tok
                    (JSONFormatter.finish_pending_string sp).m_pretty rest.length ++
                  (if e.is_array then "]" else "\x7d"),
                m_stack := rest },
            { JSONFormatter.finish_pending_string sc with
                m_ss := (JSONFormatter.finish_pending_string sc).m_ss ++
                  JSONFormatter.ws_tok
                    (JSONFormatter.finish_pending_string sc).m_pretty rest.length ++
                  (if e.is_array then "]" else "\x7d"),
                m_stack := rest }, ?_, ?_, ?_, ?_⟩
    · unfold JSONFormatter.close_section
      rw [hs]
    · unfold JSONFormatter.close_section
      rw [← hstk, hs]
    · refine ⟨hp, hc, rfl, hpn, hps, hpf, ?_⟩
      show nonWS (_ ++ JSONFormatter.ws_tok _ rest.length ++ _) =
        nonWS (_ ++ JSONFormatter.ws_tok _ rest.length ++ _)
      rw [hp, hc, nonWS_append, nonWS_append, nonWS_append, nonWS_append,
        hss, nonWS_ws_tok, nonWS_ws_tok]
    · show rest.length = sp.m_stack.length - 1
      rw [← hlen, hs]
      rfl

/-- `dump_stream` preserves the C7 simulation relation. -/
theorem dump_stream_pair (sp sc : JSONFormatterState) (h : jsonR sp sc)
    (n v : String) :
    jsonR (JSONFormatter.dump_stream sp n v)
      (JSONFormatter.dump_stream sc n v) := by
  have hf := finish_pair sp sc h
  exact ⟨hf.1, hf.2.1, hf.2.2.1, rfl, rfl, rfl, hf.2.2.2.2.2.2⟩

/-- Executing any well-nested call sequence from two C7-related JSON states
succeeds in both modes and preserves the relation. -/
theorem jsonExec_pair (ops : List FOp) :
    ∀ sp sc, jsonR sp sc → wellNestedFrom ops sp.m_stack.length = true →
    ∃ sp' sc', jsonExec ops sp = some sp' ∧ jsonExec ops sc = some sc' ∧
      jsonR sp' sc' := by
  induction ops with
  | nil => exact fun sp sc h _ => ⟨sp, sc, rfl, rfl, h⟩
  | cons op rest ih =>
    intro sp sc h hw
    cases op with
    | closeSec =>
      simp only [wellNestedFrom, Bool.and_eq_true, decide_eq_true_eq] at hw
      obtain ⟨hpos, hw1⟩ := hw
      have hne : sp.m_stack ≠ [] := by
        intro hnil
        rw [hnil] at hpos
        exact absurd hpos (by simp)
      obtain ⟨sp1, sc1, hcp, hcc, h1, hlen1⟩ := close_section_pair sp sc h hne
      obtain ⟨sp', sc', he1, he2, h2⟩ := ih sp1 sc1 h1 (by rw [hlen1]; exact hw1)
      exact ⟨sp', sc', by simp [jsonExec, jsonStep, hcp, he1],
             by simp [jsonExec, jsonStep, hcc, he2], h2⟩
    | openObj n =>
      have h1 := open_section_pair sp sc h n false
      obtain ⟨sp', sc', he1, he2, h2⟩ := ih _ _ h1
        (by rw [open_section_length]; exact hw)
      exact ⟨sp', sc', by simp [jsonExec, jsonStep, he1],
             by simp [jsonExec, jsonStep, he2], h2⟩
    | openArr n =>
      have h1 := open_section_pair sp sc h n true
      obtain ⟨sp', sc', he1, he2, h2⟩ := ih _ _ h1
        (by rw [open_section_length]; exact hw)
      exact ⟨sp', sc', by simp [jsonExec, jsonStep, he1],
             by simp [jsonExec, jsonStep, he2], h2⟩
    | dumpString n s =>
      have h1 := emit_entry_pair _ _ (finish_pair sp sc h) n
        (JSONFormatter.print_quoted_string s)
      obtain ⟨sp', sc', he1, he2, h2⟩ := ih _ _ h1
        (by rw [emit_entry_length, finish_length]; exact hw)
      exact ⟨sp', sc',
             by simp [jsonExec, jsonStep, JSONFormatter.dump_string, he1],
             by simp [jsonExec, jsonStep, JSONFormatter.dump_string, he2], h2⟩
    | dumpInt n i =>
      have h1 := emit_entry_pair _ _ (finish_pair sp sc h) n (toString i)
      obtain ⟨sp', sc', he1, he2, h2⟩ := ih _ _ h1
        (by rw [emit_entry_length, finish_length]; exact hw)
      exact ⟨sp', sc',
             by simp [jsonExec, jsonStep, JSONFormatter.dump_int, he1],
             by simp [jsonExec, jsonStep, JSONFormatter.dump_int, he2], h2⟩
    | dumpUnsigned n u =>
      have h1 := emit_entry_pair _ _ (finish_pair sp sc h) n (toString u)
      obtain ⟨sp', sc', he1, he2, h2⟩ := ih _ _ h1
        (by rw [emit_entry_length, finish_length]; exact hw)
      exact ⟨sp', sc',
             by simp [jsonExec, jsonStep, JSONFormatter.dump_unsigned, he1],
             by simp [jsonExec, jsonStep, JSONFormatter.dump_unsigned, he2], h2⟩
    | dumpFormatUnquoted n fmt args =>
      have h1 := emit_entry_pair _ _ (finish_pair sp sc h) n
        (String.mk (cformat fmt.data args))
      obtain ⟨sp', sc', he1, he2, h2⟩ := ih _ _ h1
        (by rw [emit_entry_length, finish_length]; exact hw)
      exact ⟨sp', sc',
             by simp [jsonExec, jsonStep, JSONFormatter.dump_format_unquoted, he1],
             by simp [jsonExec, jsonStep, JSONFormatter.dump_format_unquoted, he2], h2⟩
    | dumpStream n v =>
      have h1 := dump_stream_pair sp sc h n v
      obtain ⟨sp', sc', he1, he2, h2⟩ := ih _ _ h1
        (by
          show wellNestedFrom rest
            (JSONFormatter.finish_pending_string sp).m_stack.length = true
          rw [finish_length]
          exact hw)
      exact ⟨sp', sc',
             by simp [jsonExec, jsonStep, he1],
             by simp [jsonExec, jsonStep, he2], h2⟩

/-- The simulation relation of Claim C7 for XML. -/
def xmlR (sp sc : XMLFormatterState) : Prop :=
  sp.m_pretty = true ∧ sc.m_pretty = false ∧ sp.m_sections = sc.m_sections ∧
  sp.m_pending_string_name = sc.m_pending_string_name ∧
  sp.m_pending_string = sc.m_pending_string ∧
  nonWS sp.m_ss = nonWS sc.m_ss

/-- `emit_leaf` preserves the C7 simulation relation. -/
theorem xml_emit_leaf_pair (sp sc : XMLFormatterState) (h : xmlR sp sc)
    (n body : String) :
    xmlR (XMLFormatter.emit_leaf sp n body) (XMLFormatter.emit_leaf sc n body) := by
  obtain ⟨hp, hc, hsec, hpn, hps, hss⟩ := h
  refine ⟨hp, hc, hsec, hpn, hps, ?_⟩
  show nonWS (sp.m_ss ++ XMLFormatter.indent_tok sp.m_pretty sp.m_sections.length ++
      "<" ++ n ++ ">" ++ body ++ "</" ++ n ++ ">" ++ XMLFormatter.nl_tok sp.m_pretty) =
    nonWS (sc.m_ss ++ XMLFormatter.indent_tok sc.m_pretty sc.m_sections.length ++
      "<" ++ n ++ ">" ++ body ++ "</" ++ n ++ ">" ++ XMLFormatter.nl_tok sc.m_pretty)
  rw [hp, hc, hsec]
  simp only [nonWS_append, nonWS_indent_tok, nonWS_nl_tok, hss]

/-- `finish_pending_string` preserves the C7 simulation relation. -/
theorem xml_finish_pair (sp sc : XMLFormatterState) (h : xmlR sp sc) :
    xmlR (XMLFormatter.finish_pending_string sp)
      (XMLFormatter.finish_pending_string sc) := by
  have hpn := h.2.2.2.1
  have hps := h.2.2.2.2.1
  unfold XMLFormatter.finish_pending_string
  rw [hpn, hps]
  by_cases hb : sc.m_pending_string_name = ""
  · simp only [hb, if_pos]
    exact h
  · simp only [hb, if_neg, reduceIte]
    have he := xml_emit_leaf_pair sp sc h sc.m_pending_string_name
      (XMLFormatter.escape_xml_str sc.m_pending_string)
    exact ⟨he.1, he.2.1, he.2.2.1, rfl, rfl, he.2.2.2.2.2⟩

/-- `emit_leaf` preserves the tag-stack depth. -/
theorem xml_emit_leaf_sections (st : XMLFormatterState) (n body : String) :
    (XMLFormatter.emit_leaf st n body).m_sections = st.m_sections := rfl

/-- `finish_pending_string` preserves the tag stack. -/
theorem xml_finish_sections (st : XMLFormatterState) :
    (XMLFormatter.finish_pending_string st).m_sections = st.m_sections := by
  unfold XMLFormatter.finish_pending_string
  by_cases hb : st.m_pending_string_name = "" <;>
    simp [hb, XMLFormatter.emit_leaf]

/-- `open_section` preserves the C7 simulation relation. -/
theorem xml_open_section_pair (sp sc : XMLFormatterState) (h : xmlR sp sc)
    (n a : String) :
    xmlR (XMLFormatter.open_section sp n a) (XMLFormatter.open_section sc n a) := by
  have hf := xml_finish_pair sp sc h
  obtain ⟨hp, hc, hsec, hpn, hps, hss⟩ := hf
  refine ⟨hp, hc, ?_, hpn, hps, ?_⟩
  · show n :: (XMLFormatter.finish_pending_string sp).m_sections =
      n :: (XMLFormatter.finish_pending_string sc).m_sections
    rw [hsec]
  · show nonWS (_ ++ XMLFormatter.indent_tok _ _ ++ "<" ++ n ++ a ++ ">" ++
        XMLFormatter.nl_tok _) = nonWS (_ ++ XMLFormatter.indent_tok _ _ ++
        "<" ++ n ++ a ++ ">" ++ XMLFormatter.nl_tok _)
    rw [hp, hc, hsec]
    simp only [nonWS_append, nonWS_indent_tok, nonWS_nl_tok, hss]

/-- `open_section` grows the tag-stack depth by one. -/
theorem xml_open_section_length (st : XMLFormatterState) (n a : String) :
    (XMLFormatter.open_section st n a).m_sections.length =
      st.m_sections.length + 1 := by
  show ((n :: (XMLFormatter.finish_pending_string st).m_sections).length = _)
  rw [List.length_cons, xml_finish_sections]

/-- `close_section` in the two modes: succeeds together on a non-empty tag
stack, preserving the C7 simulation relation and shrinking the depth. -/
theorem xml_close_section_pair (sp sc : XMLFormatterState) (h : xmlR sp sc)
    (hne : sp.m_sections ≠ []) :
    ∃ sp' sc', XMLFormatter.close_section sp = some sp' ∧
      XMLFormatter.close_section sc = some sc' ∧ xmlR sp' sc' ∧
      sp'.m_sections.length = sp.m_sections.length - 1 := by
  have hf := xml_finish_pair sp sc h
  obtain ⟨hp, hc, hsec, hpn, hps, hss⟩ := hf
  have hlen : (XMLFormatter.finish_pending_string sp).m_sections = sp.m_sections :=
    xml_finish_sections sp
  cases hs : (XMLFormatter.finish_pending_string sp).m_sections with
  | nil =>
    exact absurd (hlen ▸ hs).symm (fun hx => hne hx.symm)
  | cons n rest =>
    refine ⟨{ XMLFormatter.finish_pending_string sp with
                m_ss := (XMLFormatter.finish_pending_string sp).m_ss ++
                  XMLFormatter.indent_tok
                    (XMLFormatter.finish_pending_string sp).m_pretty rest.length ++
                  "</" ++ n ++ ">" ++
                  XMLFormatter.nl_tok (XMLFormatter.finish_pending_string sp).m_pretty,
                m_sections := rest },
            { XMLFormatter.finish_pending_string sc with
                m_ss := (XMLFormatter.finish_pending_string sc).m_ss ++
                  XMLFormatter.indent_tok
                    (XMLFormatter.finish_pending_string sc).m_pretty rest.length ++
                  "</" ++ n ++ ">" ++
                  XMLFormatter.nl_tok (XMLFormatter.finish_pending_string sc).m_pretty,
                m_sections := rest }, ?_, ?_, ?_, ?_⟩
    · unfold XMLFormatter.close_section
      rw [hs]
    · unfold XMLFormatter.close_section
      rw [← hsec, hs]
    · refine ⟨hp, hc, rfl, hpn, hps, ?_⟩
      show nonWS (_ ++ XMLFormatter.indent_tok _ rest.length ++ "</" ++ n ++ ">" ++
          XMLFormatter.nl_tok _) =
        nonWS (_ ++ XMLFormatter.indent_tok _ rest.length ++ "</" ++ n ++ ">" ++
          XMLFormatter.nl_tok _)
      rw [hp, hc]
      simp only [nonWS_append, nonWS_indent_tok, nonWS_nl_tok, hss]
    · show rest.length = sp.m_sections.length - 1
      rw [← hlen, hs]
      rfl

/-- `dump_stream` preserves the C7 simulation relation for XML. -/
theorem xml_dump_stream_pair (sp sc : XMLFormatterState) (h : xmlR sp sc)
    (n v : String) :
    xmlR (XMLFormatter.dump_stream sp n v) (XMLFormatter.dump_stream sc n v) := by
  have hf := xml_finish_pair sp sc h
  exact ⟨hf.1, hf.2.1, hf.2.2.1, rfl, rfl, hf.2.2.2.2.2⟩

/-- Executing any well-nested call sequence from two C7-related XML states
succeeds in both modes and preserves the relation. -/
theorem xmlExec_pair (ops : List FOp) :
    ∀ sp sc, xmlR sp sc → wellNestedFrom ops sp.m_sections.length = true →
    ∃ sp' sc', xmlExec ops sp = some sp' ∧ xmlExec ops sc = some sc' ∧
      xmlR sp' sc' := by
  induction ops with
  | nil => exact fun sp sc h _ => ⟨sp, sc, rfl, rfl, h⟩
  | cons op rest ih =>
    intro sp sc h hw
    cases op with
    | closeSec =>
      simp only [wellNestedFrom, Bool.and_eq_true, decide_eq_true_eq] at hw
      obtain ⟨hpos, hw1⟩ := hw
      have hne : sp.m_sections ≠ [] := by
        intro hnil
        rw [hnil] at hpos
        exact absurd hpos (by simp)
      obtain ⟨sp1, sc1, hcp, hcc, h1, hlen1⟩ := xml_close_section_pair sp sc h hne
      obtain ⟨sp', sc', he1, he2, h2⟩ := ih sp1 sc1 h1 (by rw [hlen1]; exact hw1)
      exact ⟨sp', sc', by simp [xmlExec, xmlStep, hcp, he1],
             by simp [xmlExec, xmlStep, hcc, he2], h2⟩
    | openObj n =>
      have h1 := xml_open_section_pair sp sc h n ""
      obtain ⟨sp', sc', he1, he2, h2⟩ := ih _ _ h1
        (by rw [xml_open_section_length]; exact hw)
      exact ⟨sp', sc', by simp [xmlExec, xmlStep, he1],
             by simp [xmlExec, xmlStep, he2], h2⟩
    | openArr n =>
      have h1 := xml_open_section_pair sp sc h n ""
      obtain ⟨sp', sc', he1, he2, h2⟩ := ih _ _ h1
        (by rw [xml_open_section_length]; exact hw)
      exact ⟨sp', sc', by simp [xmlExec, xmlStep, he1],
             by simp [xmlExec, xmlStep, he2], h2⟩
    | dumpString n s =>
      have h1 := xml_emit_leaf_pair _ _ (xml_finish_pair sp sc h) n
        (XMLFormatter.escape_xml_str s)
      obtain ⟨sp', sc', he1, he2, h2⟩ := ih _ _ h1
        (by
          show wellNestedFrom rest
            (XMLFormatter.emit_leaf (XMLFormatter.finish_pending_string sp) n
              (XMLFormatter.escape_xml_str s)).m_sections.length = true
          rw [xml_emit_leaf_sections, xml_finish_sections]
          exact hw)
      exact ⟨sp', sc', by simp [xmlExec, xmlStep, XMLFormatter.dump_string, he1],
             by simp [xmlExec, xmlStep, XMLFormatter.dump_string, he2], h2⟩
    | dumpInt n i =>
      have h1 := xml_emit_leaf_pair _ _ (xml_finish_pair sp sc h) n (toString i)
      obtain ⟨sp', sc', he1, he2, h2⟩ := ih _ _ h1
        (by
          show wellNestedFrom rest
            (XMLFormatter.emit_leaf (XMLFormatter.finish_pending_string sp) n
              (toString i)).m_sections.length = true
          rw [xml_emit_leaf_sections, xml_finish_sections]
          exact hw)
      exact ⟨sp', sc', by simp [xmlExec, xmlStep, XMLFormatter.dump_int, he1],
             by simp [xmlExec, xmlStep, XMLFormatter.dump_int, he2], h2⟩
    | dumpUnsigned n u =>
      have h1 := xml_emit_leaf_pair _ _ (xml_finish_pair sp sc h) n (toString u)
      obtain ⟨sp', sc', he1, he2, h2⟩ := ih _ _ h1
        (by
          show wellNestedFrom rest
            (XMLFormatter.emit_leaf (XMLFormatter.finish_pending_string sp) n
              (toString u)).m_sections.length = true
          rw [xml_emit_leaf_sections, xml_finish_sections]
          exact hw)
      exact ⟨sp', sc', by simp [xmlExec, xmlStep, XMLFormatter.dump_unsigned, he1],
             by simp [xmlExec, xmlStep, XMLFormatter.dump_unsigned, he2], h2⟩
    | dumpFormatUnquoted n fmt args =>
      have h1 := xml_emit_leaf_pair _ _ (xml_finish_pair sp sc h) n
        (XMLFormatter.escape_xml_str (String.mk (cformat fmt.data args)))
      obtain ⟨sp', sc', he1, he2, h2⟩ := ih _ _ h1
        (by
          show wellNestedFrom rest
            (XMLFormatter.emit_leaf (XMLFormatter.finish_pending_string sp) n
              (XMLFormatter.escape_xml_str
                (String.mk (cformat fmt.data args)))).m_sections.length = true
          rw [xml_emit_leaf_sections, xml_finish_sections]
          exact hw)
      exact ⟨sp', sc',
             by simp [xmlExec, xmlStep, XMLFormatter.dump_format_unquoted, he1],
             by simp [xmlExec, xmlStep, XMLFormatter.dump_format_unquoted, he2], h2⟩
    | dumpStream n v =>
      have h1 := xml_dump_stream_pair sp sc h n v
      obtain ⟨sp', sc', he1, he2, h2⟩ := ih _ _ h1
        (by
          show wellNestedFrom rest
            (XMLFormatter.finish_pending_string sp).m_sections.length = true
          rw [xml_finish_sections]
          exact hw)
      exact ⟨sp', sc', by simp [xmlExec, xmlStep, he1],
             by simp [xmlExec, xmlStep, he2], h2⟩

/-- Claim C7: for every well-nested call sequence, the flushed output of
the JSON renderer in pretty mode and in compact mode agree on their
non-whitespace characters — they differ only in whitespace — and likewise
for the XML renderer. -/
theorem c7_pretty_compact_whitespace (ops : List FOp)
    (h : wellNestedFrom ops 0 = true) :
    (∃ sp sc, jsonExec ops (JSONFormatter.init true) = some sp ∧
       jsonExec ops (JSONFormatter.init false) = some sc ∧
       nonWS (JSONFormatter.flush_str sp) = nonWS (JSONFormatter.flush_str sc)) ∧
    (∃ xp xc, xmlExec ops (XMLFormatter.init true) = some xp ∧
       xmlExec ops (XMLFormatter.init false) = some xc ∧
       nonWS (XMLFormatter.flush_str xp) = nonWS (XMLFormatter.flush_str xc)) := by
  constructor
  · have h0 : jsonR (JSONFormatter.init true) (JSONFormatter.init false) :=
      ⟨rfl, rfl, rfl, rfl, rfl, rfl, rfl⟩
    obtain ⟨sp, sc, he1, he2, h2⟩ := jsonExec_pair ops _ _ h0 h
    exact ⟨sp, sc, he1, he2, (finish_pair sp sc h2).2.2.2.2.2.2⟩
  · have h0 : xmlR (XMLFormatter.init true) (XMLFormatter.init false) :=
      ⟨rfl, rfl, rfl, rfl, rfl, rfl⟩
    obtain ⟨xp, xc, he1, he2, h2⟩ := xmlExec_pair ops _ _ h0 h
    exact ⟨xp, xc, he1, he2, (xml_finish_pair xp xc h2).2.2.2.2.2⟩

/-- Witness for C7 on the worked example sequence. -/
theorem c7_pretty_compact_whitespace_witness :
    wellNestedFrom exampleOps 0 = true ∧
    ((∃ sp sc, jsonExec exampleOps (JSONFormatter.init true) = some sp ∧
        jsonExec exampleOps (JSONFormatter.init false) = some sc ∧
        nonWS (JSONFormatter.flush_str sp) = nonWS (JSONFormatter.flush_str sc)) ∧
     (∃ xp xc, xmlExec exampleOps (XMLFormatter.init true) = some xp ∧
        xmlExec exampleOps (XMLFormatter.init false) = some xc ∧
        nonWS (XMLFormatter.flush_str xp) = nonWS (XMLFormatter.flush_str xc))) :=
  ⟨by decide, c7_pretty_compact_whitespace exampleOps (by decide)⟩
